/-
Verification of the DiamondPad staking-tier and allocation-pool core.

The definitions below are a shallow embedding of the TypeScript sources
(`tiers.ts` and `allocation.ts`).  JavaScript numbers are modelled as
exact rationals (ℚ); `Math.floor` results (token counts) are modelled as
integers (ℤ); timestamps are rationals counting milliseconds; the wallet
ledger `Map<string, StakerPosition>` is modelled as a function
`String → Option StakerPosition`.
-/
import Mathlib

namespace DiamondPad

/-- The five staking tiers of `tiers.ts`. -/
inductive StakingTier
  | public
  | bronze
  | silver
  | gold
  | diamond
deriving DecidableEq, Repr

/-- Position of a tier in the fixed ordering
`['public', 'bronze', 'silver', 'gold', 'diamond']` used by the code. -/
def StakingTier.idx : StakingTier → ℕ
  | .public => 0
  | .bronze => 1
  | .silver => 2
  | .gold => 3
  | .diamond => 4

/-- Static per-tier configuration (`TierConfig` in `tiers.ts`).
The cosmetic `name`/`emoji` fields are omitted. -/
structure TierConfig where
  minStake : ℚ
  lockDays : ℚ
  allocationWeight : ℚ
  guaranteedAllocation : Bool
  lotteryBoost : ℚ
  feeDiscount : ℚ
  priorityAccess : Bool
  maxAllocationPercent : ℚ
deriving DecidableEq, Repr

/-- The `TIER_CONFIG` table of `tiers.ts`. -/
def TIER_CONFIG : StakingTier → TierConfig
  | .diamond => ⟨100000, 180, 10, true, 5, 3/5, true, 5⟩
  | .gold => ⟨50000, 90, 5, true, 3, 2/5, true, 3⟩
  | .silver => ⟨20000, 60, 5/2, false, 2, 1/4, false, 2⟩
  | .bronze => ⟨5000, 30, 1, false, 3/2, 1/10, false, 1⟩
  | .public => ⟨0, 0, 1/4, false, 1, 0, false, 1/2⟩

/-- Early-unstake penalty constant (`EARLY_UNSTAKE_PENALTY = 0.1`). -/
def EARLY_UNSTAKE_PENALTY : ℚ := 1/10

/-- SHS multiplier range constant (`SHS_MIN_MULTIPLIER = 0.5`). -/
def SHS_MIN_MULTIPLIER : ℚ := 1/2

/-- SHS multiplier range constant (`SHS_MAX_MULTIPLIER = 2.0`). -/
def SHS_MAX_MULTIPLIER : ℚ := 2

/-- Embeds `StakingTierManager.getTierForStake`: thresholds are checked
diamond → gold → silver → bronze, requiring both the stake amount and the
lock duration, falling through to `public`. -/
def getTierForStake (amount lockDays : ℚ) : StakingTier :=
  if (TIER_CONFIG .diamond).minStake ≤ amount ∧ (TIER_CONFIG .diamond).lockDays ≤ lockDays then
    .diamond
  else if (TIER_CONFIG .gold).minStake ≤ amount ∧ (TIER_CONFIG .gold).lockDays ≤ lockDays then
    .gold
  else if (TIER_CONFIG .silver).minStake ≤ amount ∧ (TIER_CONFIG .silver).lockDays ≤ lockDays then
    .silver
  else if (TIER_CONFIG .bronze).minStake ≤ amount ∧ (TIER_CONFIG .bronze).lockDays ≤ lockDays then
    .bronze
  else
    .public

/-- Input record of `StakingTierManager.calculateSHS`. -/
structure SHSHistory where
  holdDuration : ℚ
  launchesParticipated : ℕ
  launchesHeldLong : ℕ
  quickFlips : ℕ
  lpProvided : Bool
  governanceVotes : ℕ
deriving DecidableEq, Repr

/-- Embeds `StakingTierManager.calculateSHS`: base 50, hold-duration factor,
loyalty ratio, flip penalty, LP and governance bonuses, clamped to [0, 100]. -/
def calculateSHS (h : SHSHistory) : ℚ :=
  let score : ℚ := 50
  let holdFactor := min (h.holdDuration / 90) 1 * 40
  let score := score + holdFactor
  let loyaltyRatio := (h.launchesHeldLong : ℚ) / ((max h.launchesParticipated 1 : ℕ) : ℚ)
  let score := score + loyaltyRatio * 20
  let flipRatio := (h.quickFlips : ℚ) / ((max h.launchesParticipated 1 : ℕ) : ℚ)
  let score := score - flipRatio * 30
  let score := score + (if h.lpProvided then 10 else 0)
  let score := score + min (h.governanceVotes : ℚ) 5
  max 0 (min 100 score)

/-- Embeds `StakingTierManager.shsToMultiplier`. -/
def shsToMultiplier (shs : ℚ) : ℚ :=
  let normalized := shs / 100
  SHS_MIN_MULTIPLIER + normalized * (SHS_MAX_MULTIPLIER - SHS_MIN_MULTIPLIER)

/-- Embeds `StakingTierManager.getEffectiveWeight`. -/
def getEffectiveWeight (tier : StakingTier) (shs : ℚ) : ℚ :=
  (TIER_CONFIG tier).allocationWeight * shsToMultiplier shs

/-- Embeds `StakerPosition` of `tiers.ts` (dates as millisecond timestamps). -/
structure StakerPosition where
  wallet : String
  stakedAmount : ℚ
  stakedAt : ℚ
  lockEndDate : ℚ
  tier : StakingTier
  strongHolderScore : ℚ
  effectiveWeight : ℚ
  totalAllocationsReceived : ℚ
  totalAllocationsValue : ℚ
  loyaltyStreak : ℚ
deriving DecidableEq, Repr

/-- The wallet → position ledger (`Map<string, StakerPosition>`). -/
abbrev Stakers := String → Option StakerPosition

/-- Milliseconds per day (`24 * 60 * 60 * 1000`). -/
def msPerDay : ℚ := 24 * 60 * 60 * 1000

/-- Embeds `StakeRequest`. -/
structure StakeRequest where
  wallet : String
  amount : ℚ
  lockDays : ℚ
deriving DecidableEq, Repr

/-- Embeds `UnstakeRequest`. -/
structure UnstakeRequest where
  wallet : String
  amount : ℚ
  early : Bool
deriving DecidableEq, Repr

/-- Embeds `StakingTierManager.stake` (with `Date.now()` passed as `now`).
Returns the resulting position together with the updated ledger. -/
def stake (now : ℚ) (s : Stakers) (req : StakeRequest) : StakerPosition × Stakers :=
  let tier := getTierForStake req.amount req.lockDays
  match s req.wallet with
  | some position =>
      let p1 : StakerPosition :=
        { position with
          stakedAmount := position.stakedAmount + req.amount
          lockEndDate := max position.lockEndDate (now + req.lockDays * msPerDay)
          tier := getTierForStake (position.stakedAmount + req.amount) req.lockDays }
      let p2 := { p1 with effectiveWeight := getEffectiveWeight p1.tier p1.strongHolderScore }
      (p2, fun w => if w = req.wallet then some p2 else s w)
  | none =>
      let shs : ℚ := 50
      let p1 : StakerPosition :=
        { wallet := req.wallet
          stakedAmount := req.amount
          stakedAt := now
          lockEndDate := now + req.lockDays * msPerDay
          tier := tier
          strongHolderScore := shs
          effectiveWeight := getEffectiveWeight tier shs
          totalAllocationsReceived := 0
          totalAllocationsValue := 0
          loyaltyStreak := 0 }
      let p2 := { p1 with effectiveWeight := getEffectiveWeight p1.tier p1.strongHolderScore }
      (p2, fun w => if w = req.wallet then some p2 else s w)

/-- Outcome of `StakingTierManager.unstake`: the TypeScript method either
`throw`s an `Error` (modelled by `thrown`) or returns the record
`{amountReturned, penaltyApplied, newPosition}` (modelled by `returned`). -/
inductive UnstakeOutcome
  | thrown (msg : String)
  | returned (amountReturned penaltyApplied : ℚ) (newPosition : Option StakerPosition)
deriving DecidableEq, Repr

/-- Discriminator: true exactly when an unstake outcome is a thrown error
rather than a returned result record. -/
def UnstakeOutcome.isThrown : UnstakeOutcome → Bool
  | .thrown _ => true
  | .returned _ _ _ => false

/-- Embeds `StakingTierManager.unstake` (with `Date.now()` passed as `now`).
Returns the outcome together with the ledger after the call; on a thrown
error the ledger is returned unchanged, matching the code, where both
`throw` sites run before any mutation. -/
def unstake (now : ℚ) (s : Stakers) (req : UnstakeRequest) : UnstakeOutcome × Stakers :=
  match s req.wallet with
  | none => (.thrown "No staking position found", s)
  | some position =>
      if position.stakedAmount < req.amount then
        (.thrown "Insufficient staked balance", s)
      else
        let penalty : ℚ :=
          if req.early = true ∧ now < position.lockEndDate then
            req.amount * EARLY_UNSTAKE_PENALTY
          else 0
        let amountReturned := req.amount - penalty
        let newAmount := position.stakedAmount - req.amount
        if newAmount ≤ 0 then
          (.returned amountReturned penalty none,
           fun w => if w = req.wallet then none else s w)
        else
          let remainingLockDays : ℤ := max 0 ⌊(position.lockEndDate - now) / msPerDay⌋
          let newTier := getTierForStake newAmount (remainingLockDays : ℚ)
          let p' :=
            { position with
              stakedAmount := newAmount
              tier := newTier
              effectiveWeight := getEffectiveWeight newTier position.strongHolderScore }
          (.returned amountReturned penalty (some p'),
           fun w => if w = req.wallet then some p' else s w)

/-- Embeds `StakingTierManager.updateSHS`: overwrites the stored score with
`newSHS` (no validation in the source) and recomputes the weight. -/
def updateSHS (s : Stakers) (wallet : String) (newSHS : ℚ) : Stakers :=
  match s wallet with
  | none => s
  | some position =>
      let p' :=
        { position with
          strongHolderScore := newSHS
          effectiveWeight := getEffectiveWeight position.tier newSHS }
      fun w => if w = wallet then some p' else s w

/-- Embeds `StakingTierManager.getLotteryBoost`. -/
def getLotteryBoost (s : Stakers) (wallet : String) : ℚ :=
  match s wallet with
  | none => (TIER_CONFIG .public).lotteryBoost
  | some position =>
      (TIER_CONFIG position.tier).lotteryBoost * shsToMultiplier position.strongHolderScore

/-- The seven allocation pools of `allocation.ts`. -/
inductive AllocationPool
  | guaranteed
  | weighted_lottery
  | public_lottery
  | fcfs
  | flipper
  | liquidity
  | trader_rewards
deriving DecidableEq, Repr

/-- Distribution mechanism of a pool. -/
inductive Mechanism
  | prorata
  | lottery
  | fcfs
  | auto
deriving DecidableEq, Repr

/-- Static per-pool configuration (`PoolConfig` in `allocation.ts`);
the cosmetic `name` field is omitted. -/
structure PoolConfig where
  percent : ℚ
  requiresStaking : Bool
  minTier : Option StakingTier
  maxPerWallet : ℚ
  mechanism : Mechanism
  vestingDays : ℚ
  exitFee : ℚ
deriving DecidableEq, Repr

/-- The `POOL_CONFIG` table of `allocation.ts`. -/
def POOL_CONFIG : AllocationPool → PoolConfig
  | .guaranteed => ⟨30, true, some .gold, 25000, .prorata, 0, 0⟩
  | .weighted_lottery => ⟨25, true, some .bronze, 5000, .lottery, 0, 0⟩
  | .public_lottery => ⟨10, false, none, 500, .lottery, 0, 0⟩
  | .fcfs => ⟨5, false, none, 100, .fcfs, 0, 0⟩
  | .flipper => ⟨5, false, none, 200, .lottery, 0, 1/20⟩
  | .liquidity => ⟨15, false, none, 0, .auto, 365, 0⟩
  | .trader_rewards => ⟨10, false, none, 0, .auto, 30, 0⟩

/-- One release record of a `VestingSchedule`; `date` is a millisecond
timestamp. -/
structure VestingRelease where
  date : ℚ
  amount : ℤ
  released : Bool
deriving DecidableEq, Repr

/-- Embeds `VestingSchedule` of `allocation.ts`. -/
structure VestingSchedule where
  totalTokens : ℤ
  releasedTokens : ℤ
  cliffDays : ℚ
  vestingDays : ℚ
  startDate : ℚ
  releases : List VestingRelease
deriving DecidableEq, Repr

/-- One row of the `VESTING_TIERS` table; `maxUSD = none` encodes the
JavaScript `Infinity` bound of the last row. -/
structure VestingTierCfg where
  maxUSD : Option ℚ
  cliffDays : ℚ
  vestingDays : ℚ
  tgePercent : ℚ
deriving DecidableEq, Repr

/-- The `VESTING_TIERS` table of `allocation.ts`. -/
def VESTING_TIERS : List VestingTierCfg :=
  [⟨some 500, 0, 0, 100⟩,
   ⟨some 2000, 0, 30, 50⟩,
   ⟨some 10000, 7, 60, 25⟩,
   ⟨none, 14, 90, 20⟩]

/-- Row selection of `createVestingSchedule`:
`VESTING_TIERS.find(t => amountUSD <= t.maxUSD) || VESTING_TIERS[last]`. -/
def vestingTierFor (amountUSD : ℚ) : VestingTierCfg :=
  (VESTING_TIERS.find? fun t =>
      match t.maxUSD with
      | none => true
      | some m => decide (amountUSD ≤ m)).getD ⟨none, 14, 90, 20⟩

/-- Embeds `AllocationManager.createVestingSchedule` (with `Date.now()` and
`new Date()` passed as the millisecond timestamp `now`).  The no-vesting row
yields one already-released record; otherwise the TGE tranche is floored and
the remainder is split into 4 tranches, the integer-division remainder going
to the last one. -/
def createVestingSchedule (now amountUSD : ℚ) (tokens : ℤ) : VestingSchedule :=
  let tier := vestingTierFor amountUSD
  if tier.vestingDays = 0 then
    { totalTokens := tokens
      releasedTokens := tokens
      cliffDays := 0
      vestingDays := 0
      startDate := now
      releases := [{ date := now, amount := tokens, released := true }] }
  else
    let tgeAmount : ℤ := ⌊(tokens : ℚ) * (tier.tgePercent / 100)⌋
    let vestingAmount : ℤ := tokens - tgeAmount
    let vestingReleases : ℕ := 4
    let releaseAmount : ℤ := ⌊(vestingAmount : ℚ) / (vestingReleases : ℚ)⌋
    let releaseInterval : ℚ := tier.vestingDays / (vestingReleases : ℚ)
    let tgeRelease : VestingRelease := { date := now, amount := tgeAmount, released := false }
    let laterReleases := (List.range vestingReleases).map fun i =>
      let daysFromStart := tier.cliffDays + releaseInterval * ((i : ℚ) + 1)
      { date := now + daysFromStart * msPerDay
        amount :=
          if i = vestingReleases - 1 then
            vestingAmount - releaseAmount * ((vestingReleases : ℤ) - 1)
          else releaseAmount
        released := false : VestingRelease }
    { totalTokens := tokens
      releasedTokens := 0
      cliffDays := tier.cliffDays
      vestingDays := tier.vestingDays
      startDate := now
      releases := tgeRelease :: laterReleases }

/-- Status of an `AllocationEntry`. -/
inductive EntryStatus
  | pending
  | won
  | lost
  | filled
deriving DecidableEq, Repr

/-- Status of a `PoolAllocation`; the source's `'open'` is spelled `opened`
because `open` is a Lean keyword. -/
inductive PoolStatus
  | pending
  | opened
  | closed
  | distributed
deriving DecidableEq, Repr

/-- Numeric rank of a pool status along the documented lifecycle
`pending → open → closed → distributed`. -/
def PoolStatus.rank : PoolStatus → ℕ
  | .pending => 0
  | .opened => 1
  | .closed => 2
  | .distributed => 3

/-- Embeds `AllocationEntry` of `allocation.ts`. -/
structure AllocationEntry where
  wallet : String
  pool : AllocationPool
  requestedAmount : ℚ
  allocatedTokens : ℤ
  allocatedValueUSD : ℚ
  weight : ℚ
  lotteryTickets : ℤ
  vestingSchedule : Option VestingSchedule
  status : EntryStatus
deriving DecidableEq, Repr

/-- Embeds `PoolAllocation` of `allocation.ts`. -/
structure PoolAllocation where
  pool : AllocationPool
  totalTokens : ℤ
  totalValueUSD : ℚ
  allocated : ℤ
  remaining : ℤ
  participants : List AllocationEntry
  status : PoolStatus
deriving DecidableEq, Repr

/-- Embeds the per-pool effect of `AllocationManager.openPool`: the status is
assigned unconditionally (the source only guards that the launch exists). -/
def openPool (p : PoolAllocation) : PoolAllocation :=
  { p with status := .opened }

/-- Embeds the per-pool effect of `AllocationManager.closePool`: the status is
assigned unconditionally (the source only guards that the launch exists). -/
def closePool (p : PoolAllocation) : PoolAllocation :=
  { p with status := .closed }

/-- Embeds `AllocationManager.executeGuaranteedPool`, acting on the launch's
guaranteed `PoolAllocation` with the launch's `tokenPrice`; `now` stands for
the wall clock used by vesting-schedule construction.  Mirrors the source:
early return on an empty participant list, pro-rata share floored then capped
at the participant's requested-token equivalent, `allocated` incremented from
its previous value, every participant marked `filled` with a vesting
schedule. -/
def executeGuaranteedPool (tokenPrice now : ℚ) (pool : PoolAllocation) : PoolAllocation :=
  if pool.participants = [] then pool
  else
    let totalWeight := (pool.participants.map AllocationEntry.weight).sum
    let newParticipants := pool.participants.map fun participant =>
      let share := participant.weight / totalWeight
      let allocatedTokens : ℤ := ⌊(pool.totalTokens : ℚ) * share⌋
      let finalTokens := min allocatedTokens ⌊participant.requestedAmount / tokenPrice⌋
      let finalUSD := (finalTokens : ℚ) * tokenPrice
      { participant with
        allocatedTokens := finalTokens
        allocatedValueUSD := finalUSD
        status := .filled
        vestingSchedule := some (createVestingSchedule now finalUSD finalTokens) }
    let newAllocated :=
      pool.allocated + (newParticipants.map AllocationEntry.allocatedTokens).sum
    { pool with
      participants := newParticipants
      allocated := newAllocated
      remaining := pool.totalTokens - newAllocated
      status := .distributed }

/-- Updates the first entry of a participant list whose wallet matches,
modelling the in-place mutation of the entry found by
`participants.find(p => p.wallet === wallet)`. -/
def updateFirst (wallet : String) (f : AllocationEntry → AllocationEntry) :
    List AllocationEntry → List AllocationEntry
  | [] => []
  | e :: rest => if e.wallet = wallet then f e :: rest else e :: updateFirst wallet f rest

/-- The ticket-drawing loop of `AllocationManager.executeLotteryPool`.
Arguments: remaining shuffled tickets, wallets already awarded (the `winners`
set), current participant list, running `allocated` counter, and the local
`remainingTokens` counter.  Returns the final participants, `allocated`, and
`remainingTokens`. -/
def lotteryDraw (tokenPrice maxPerWallet now : ℚ) :
    List String → List String → List AllocationEntry → ℤ → ℤ →
    List AllocationEntry × ℤ × ℤ
  | [], _, parts, allocated, remaining => (parts, allocated, remaining)
  | wallet :: rest, winners, parts, allocated, remaining =>
    if remaining ≤ 0 then (parts, allocated, remaining)
    else if wallet ∈ winners then
      lotteryDraw tokenPrice maxPerWallet now rest winners parts allocated remaining
    else
      match parts.find? fun p => p.wallet = wallet with
      | none => lotteryDraw tokenPrice maxPerWallet now rest winners parts allocated remaining
      | some participant =>
        let maxTokens : ℤ := ⌊maxPerWallet / tokenPrice⌋
        let requestedTokens : ℤ := ⌊participant.requestedAmount / tokenPrice⌋
        let allocatedTokens := min (min maxTokens requestedTokens) remaining
        let parts' := updateFirst wallet
          (fun p =>
            { p with
              allocatedTokens := allocatedTokens
              allocatedValueUSD := (allocatedTokens : ℚ) * tokenPrice
              status := .won
              vestingSchedule :=
                some (createVestingSchedule now ((allocatedTokens : ℚ) * tokenPrice)
                  allocatedTokens) })
          parts
        lotteryDraw tokenPrice maxPerWallet now rest (wallet :: winners) parts'
          (allocated + allocatedTokens) (remaining - allocatedTokens)

/-- Embeds `AllocationManager.executeLotteryPool` for pool id `poolId` with
the launch's `tokenPrice`.  The Fisher–Yates shuffle over the flat ticket
list uses `Math.random()`; its output is modelled by the parameter
`shuffledTickets`, an arbitrary drawn-ticket order, so theorems below hold
for every possible shuffle outcome.  Mirrors the source: early return on an
empty participant list, one award per wallet, award
`min(maxPerWallet/price, requestedTokens, remainingTokens)`, `allocated`
incremented from its previous value, `remaining` overwritten with the loop's
final counter, non-winners marked `lost`. -/
def executeLotteryPool (tokenPrice now : ℚ) (poolId : AllocationPool)
    (shuffledTickets : List String) (poolData : PoolAllocation) : PoolAllocation :=
  if poolData.participants = [] then poolData
  else
    let poolConfig := POOL_CONFIG poolId
    let res := lotteryDraw tokenPrice poolConfig.maxPerWallet now shuffledTickets []
      poolData.participants poolData.allocated poolData.totalTokens
    let marked := res.1.map fun p =>
      if p.status = EntryStatus.pending then { p with status := EntryStatus.lost } else p
    { poolData with
      participants := marked
      allocated := res.2.1
      remaining := res.2.2
      status := .distributed }

/-- Decides whether no participant of a guaranteed pool is cap-limited, i.e.
every floored pro-rata share is at most the participant's requested-token
equivalent, so the cap `min` never bites. -/
def guaranteedNoneCapped (tokenPrice : ℚ) (pool : PoolAllocation) : Bool :=
  let totalWeight := (pool.participants.map AllocationEntry.weight).sum
  pool.participants.all fun p =>
    decide (⌊(pool.totalTokens : ℚ) * (p.weight / totalWeight)⌋ ≤
      ⌊p.requestedAmount / tokenPrice⌋)

/-- Sample guaranteed-pool entry: weight 1, far-from-capped request. -/
def floorLossEntry (w : String) : AllocationEntry :=
  { wallet := w, pool := .guaranteed, requestedAmount := 1000000, allocatedTokens := 0,
    allocatedValueUSD := 0, weight := 1, lotteryTickets := 0, vestingSchedule := none,
    status := .pending }

/-- Guaranteed pool of 100 tokens with three equal-weight participants: each
floored pro-rata share is 33, so 1 token is lost to flooring with nobody
capped. -/
def floorLossPool : PoolAllocation :=
  { pool := .guaranteed, totalTokens := 100, totalValueUSD := 100, allocated := 0,
    remaining := 100, participants := [floorLossEntry "a", floorLossEntry "b", floorLossEntry "c"],
    status := .closed }

/-- Small concrete guaranteed pool used to instantiate the conservation
theorem. -/
def smallGuaranteedPool : PoolAllocation :=
  { pool := .guaranteed, totalTokens := 50, totalValueUSD := 50, allocated := 0,
    remaining := 50,
    participants :=
      [{ wallet := "a", pool := .guaranteed, requestedAmount := 300, allocatedTokens := 0,
         allocatedValueUSD := 0, weight := 2, lotteryTickets := 0, vestingSchedule := none,
         status := .pending }],
    status := .closed }

/-- Small concrete lottery pool used to instantiate the conservation
theorem. -/
def smallLotteryPool : PoolAllocation :=
  { pool := .fcfs, totalTokens := 40, totalValueUSD := 40, allocated := 0,
    remaining := 40,
    participants :=
      [{ wallet := "a", pool := .fcfs, requestedAmount := 50, allocatedTokens := 0,
         allocatedValueUSD := 0, weight := 1, lotteryTickets := 2, vestingSchedule := none,
         status := .pending }],
    status := .closed }

/-- The spec's guaranteed-pool scenario: two participants of weight 10 and 5
sharing 300,000 tokens at price $0.001, requests far below the cap. -/
def proRataScenarioPool : PoolAllocation :=
  { pool := .guaranteed, totalTokens := 300000, totalValueUSD := 300, allocated := 0,
    remaining := 300000,
    participants :=
      [{ wallet := "a", pool := .guaranteed, requestedAmount := 25000, allocatedTokens := 0,
         allocatedValueUSD := 0, weight := 10, lotteryTickets := 0, vestingSchedule := none,
         status := .pending },
       { wallet := "b", pool := .guaranteed, requestedAmount := 25000, allocatedTokens := 0,
         allocatedValueUSD := 0, weight := 5, lotteryTickets := 0, vestingSchedule := none,
         status := .pending }],
    status := .closed }

/-- Guaranteed pool of 1000 tokens with a single uncapped participant, used
to exhibit the double-award on re-execution. -/
def doubleRunPool : PoolAllocation :=
  { pool := .guaranteed, totalTokens := 1000, totalValueUSD := 1000, allocated := 0,
    remaining := 1000,
    participants :=
      [{ wallet := "a", pool := .guaranteed, requestedAmount := 1000000, allocatedTokens := 0,
         allocatedValueUSD := 0, weight := 1, lotteryTickets := 0, vestingSchedule := none,
         status := .pending }],
    status := .closed }

/-- A pool record used to exhibit the status regression of
`openPool`/`closePool`. -/
def lifecyclePool : PoolAllocation :=
  { pool := .guaranteed, totalTokens := 100, totalValueUSD := 100, allocated := 0,
    remaining := 100, participants := [], status := .pending }

/-- A bronze staker with in-range SHS, used to exhibit the unchecked
`updateSHS` write. -/
def c6Pos : StakerPosition :=
  { wallet := "a", stakedAmount := 10000, stakedAt := 0, lockEndDate := 0,
    tier := .bronze, strongHolderScore := 50, effectiveWeight := 5/4,
    totalAllocationsReceived := 0, totalAllocationsValue := 0, loyaltyStreak := 0 }

/-- Ledger holding only `c6Pos`. -/
def c6Stakers : Stakers := fun w => if w = "a" then some c6Pos else none

/-- The empty staking ledger. -/
def emptyStakers : Stakers := fun _ => none

/-- A staker with 10 tokens staked, used to instantiate the
insufficient-balance failure. -/
def c7Pos : StakerPosition :=
  { wallet := "b", stakedAmount := 10, stakedAt := 0, lockEndDate := 0,
    tier := .public, strongHolderScore := 50, effectiveWeight := 5/16,
    totalAllocationsReceived := 0, totalAllocationsValue := 0, loyaltyStreak := 0 }

/-- Ledger holding only `c7Pos`. -/
def c7Stakers : Stakers := fun w => if w = "b" then some c7Pos else none

/-- The spec's unstake scenario: 100 tokens staked, lock still running. -/
def c8Pos : StakerPosition :=
  { wallet := "a", stakedAmount := 100, stakedAt := 0,
    lockEndDate := 30 * msPerDay,
    tier := .public, strongHolderScore := 50, effectiveWeight := 5/16,
    totalAllocationsReceived := 0, totalAllocationsValue := 0, loyaltyStreak := 0 }

/-- Ledger holding only `c8Pos`. -/
def c8Stakers : Stakers := fun w => if w = "a" then some c8Pos else none

/-- An existing position of 60,000 staked tokens locked until day 100, used
to instantiate the stake-merge theorem. -/
def c9Pos : StakerPosition :=
  { wallet := "a", stakedAmount := 60000, stakedAt := 0,
    lockEndDate := 100 * msPerDay,
    tier := .silver, strongHolderScore := 50, effectiveWeight := 25/8,
    totalAllocationsReceived := 0, totalAllocationsValue := 0, loyaltyStreak := 0 }

/-- Ledger holding only `c9Pos`. -/
def c9Stakers : Stakers := fun w => if w = "a" then some c9Pos else none

/-- Helper: whenever the diamond thresholds are met, the computed tier is at
least diamond in the fixed tier ordering. -/
lemma idx_ge_of_diamond (a d : ℚ)
    (h : (TIER_CONFIG .diamond).minStake ≤ a ∧ (TIER_CONFIG .diamond).lockDays ≤ d) :
    4 ≤ (getTierForStake a d).idx := by
  unfold getTierForStake
  split_ifs <;> decide

/-- Helper: whenever the gold thresholds are met, the computed tier is at
least gold in the fixed tier ordering. -/
lemma idx_ge_of_gold (a d : ℚ)
    (h : (TIER_CONFIG .gold).minStake ≤ a ∧ (TIER_CONFIG .gold).lockDays ≤ d) :
    3 ≤ (getTierForStake a d).idx := by
  unfold getTierForStake
  split_ifs <;> decide

/-- Helper: whenever the silver thresholds are met, the computed tier is at
least silver in the fixed tier ordering. -/
lemma idx_ge_of_silver (a d : ℚ)
    (h : (TIER_CONFIG .silver).minStake ≤ a ∧ (TIER_CONFIG .silver).lockDays ≤ d) :
    2 ≤ (getTierForStake a d).idx := by
  unfold getTierForStake
  split_ifs <;> decide

/-- Helper: whenever the bronze thresholds are met, the computed tier is at
least bronze in the fixed tier ordering. -/
lemma idx_ge_of_bronze (a d : ℚ)
    (h : (TIER_CONFIG .bronze).minStake ≤ a ∧ (TIER_CONFIG .bronze).lockDays ≤ d) :
    1 ≤ (getTierForStake a d).idx := by
  unfold getTierForStake
  split_ifs <;> decide

/-- C10: `getTierForStake` is monotone non-decreasing in both the stake
amount and the lock duration, under the tier ordering
public < bronze < silver < gold < diamond (encoded by `StakingTier.idx`). -/
theorem tier_monotone (a1 a2 d1 d2 : ℚ) (ha : a1 ≤ a2) (hd : d1 ≤ d2) :
    (getTierForStake a1 d1).idx ≤ (getTierForStake a2 d2).idx := by
  have key : ∀ t : StakingTier,
      (TIER_CONFIG t).minStake ≤ a1 ∧ (TIER_CONFIG t).lockDays ≤ d1 →
      (TIER_CONFIG t).minStake ≤ a2 ∧ (TIER_CONFIG t).lockDays ≤ d2 :=
    fun t h => ⟨h.1.trans ha, h.2.trans hd⟩
  conv_lhs => unfold getTierForStake
  split_ifs with h1 h2 h3 h4
  · exact idx_ge_of_diamond a2 d2 (key _ h1)
  · exact idx_ge_of_gold a2 d2 (key _ h2)
  · exact idx_ge_of_silver a2 d2 (key _ h3)
  · exact idx_ge_of_bronze a2 d2 (key _ h4)
  · exact Nat.zero_le _

/-- C10 witness: tier monotonicity instantiated at a concrete pair of inputs
crossing the gold threshold. -/
theorem tier_monotone_witness :
    (getTierForStake 40000 60).idx ≤ (getTierForStake 110000 90).idx :=
  tier_monotone 40000 110000 60 90 (by norm_num) (by norm_num)

/-- C6 counterexample: `updateSHS` stores the supplied value without any
validation, so feeding 150 drives a wallet's Strong Holder Score above 100,
violating the claimed `[0, 100]` model invariant. -/
theorem updateSHS_overflow_cex :
    (updateSHS c6Stakers "a" 150 "a").map StakerPosition.strongHolderScore = some 150 ∧
    ¬ (150 : ℚ) ≤ 100 := by
  constructor
  · simp [updateSHS, c6Stakers, c6Pos]
  · norm_num

/-- C6 (amended): `calculateSHS` is clamped to `[0, 100]` for every history,
and `updateSHS` preserves the `[0, 100]` bound of every stored score provided
the supplied `newValue` itself lies in `[0, 100]` (the function performs no
validation of its own). -/
theorem shs_bounds_amended :
    (∀ h : SHSHistory, 0 ≤ calculateSHS h ∧ calculateSHS h ≤ 100) ∧
    (∀ (s : Stakers) (wallet : String) (v : ℚ), 0 ≤ v → v ≤ 100 →
      (∀ w p, s w = some p → 0 ≤ p.strongHolderScore ∧ p.strongHolderScore ≤ 100) →
      ∀ w p, updateSHS s wallet v w = some p →
        0 ≤ p.strongHolderScore ∧ p.strongHolderScore ≤ 100) := by
  constructor
  · intro h
    unfold calculateSHS
    exact ⟨le_max_left 0 _, max_le (by norm_num) (min_le_left 100 _)⟩
  · intro s wallet v hv0 hv1 hs w p hp
    unfold updateSHS at hp
    cases hsw : s wallet with
    | none => rw [hsw] at hp; exact hs w p hp
    | some q =>
        rw [hsw] at hp
        simp only at hp
        by_cases hw : w = wallet
        · rw [if_pos hw] at hp
          cases hp
          exact ⟨hv0, hv1⟩
        · rw [if_neg hw] at hp
          exact hs w p hp

/-- C6 witness: the amended bound instantiated on the concrete ledger
`c6Stakers` with the in-range update value 80. -/
theorem shs_bounds_amended_witness :
    0 ≤ calculateSHS ⟨45, 2, 1, 0, true, 3⟩ ∧ calculateSHS ⟨45, 2, 1, 0, true, 3⟩ ≤ 100 ∧
    ∀ p, updateSHS c6Stakers "a" 80 "a" = some p →
      0 ≤ p.strongHolderScore ∧ p.strongHolderScore ≤ 100 := by
  refine ⟨(shs_bounds_amended.1 ⟨45, 2, 1, 0, true, 3⟩).1,
    (shs_bounds_amended.1 ⟨45, 2, 1, 0, true, 3⟩).2, ?_⟩
  intro p hp
  refine shs_bounds_amended.2 c6Stakers "a" 80 (by norm_num) (by norm_num) ?_ "a" p hp
  intro w q hq
  unfold c6Stakers at hq
  by_cases hw : w = "a"
  · rw [if_pos hw] at hq
    cases hq
    unfold c6Pos
    norm_num
  · rw [if_neg hw] at hq
    cases hq

/-- C7 counterexample: `unstake` on a wallet with no staking position
produces a thrown error (modelled by `UnstakeOutcome.thrown`), not a
returned result value, refuting the claim that these failures are returned
rather than thrown across the module boundary. -/
theorem unstake_thrown_cex :
    (unstake 0 emptyStakers ⟨"a", 5, false⟩).1 = .thrown "No staking position found" ∧
    (unstake 0 emptyStakers ⟨"a", 5, false⟩).1.isThrown = true :=
  ⟨rfl, rfl⟩

/-- C7 (amended): `unstake` fails when no position exists and when the
requested amount exceeds the staked balance; both failures are thrown as
exceptions (never returned as result values), and either rejection leaves
the staking ledger completely untouched. -/
theorem unstake_error_contract_amended (now : ℚ) (s : Stakers) (req : UnstakeRequest) :
    (s req.wallet = none →
      unstake now s req = (.thrown "No staking position found", s)) ∧
    (∀ pos, s req.wallet = some pos → pos.stakedAmount < req.amount →
      unstake now s req = (.thrown "Insufficient staked balance", s)) := by
  constructor
  · intro h
    unfold unstake
    rw [h]
  · intro pos h hlt
    unfold unstake
    rw [h]
    simp only [if_pos hlt]

/-- C7 witness: both failure modes instantiated concretely — unknown wallet
on the empty ledger, and over-withdrawal of 50 from a 10-token position —
with the ledger returned unchanged. -/
theorem unstake_error_contract_witness :
    unstake 0 emptyStakers ⟨"a", 5, false⟩ = (.thrown "No staking position found", emptyStakers) ∧
    unstake 0 c7Stakers ⟨"b", 50, false⟩ = (.thrown "Insufficient staked balance", c7Stakers) :=
  ⟨(unstake_error_contract_amended 0 emptyStakers ⟨"a", 5, false⟩).1 rfl,
   (unstake_error_contract_amended 0 c7Stakers ⟨"b", 50, false⟩).2 c7Pos
     (by simp [c7Stakers]) (by norm_num [c7Pos])⟩

/-- C8: an `early` unstake before the lock-end date applies the 10% penalty
(amount returned is 90% of the withdrawn amount), decrements the balance by
the full amount, and recomputes tier and weight from the remaining lock days
and the reduced balance. -/
theorem early_unstake_penalty (now : ℚ) (s : Stakers) (req : UnstakeRequest)
    (pos : StakerPosition)
    (hpos : s req.wallet = some pos) (hearly : req.early = true)
    (hlock : now < pos.lockEndDate) (hamt : req.amount < pos.stakedAmount) :
    (unstake now s req).1 =
      .returned (req.amount - req.amount * EARLY_UNSTAKE_PENALTY)
        (req.amount * EARLY_UNSTAKE_PENALTY)
        (some { pos with
          stakedAmount := pos.stakedAmount - req.amount
          tier := getTierForStake (pos.stakedAmount - req.amount)
            ((max 0 ⌊(pos.lockEndDate - now) / msPerDay⌋ : ℤ) : ℚ)
          effectiveWeight :=
            getEffectiveWeight
              (getTierForStake (pos.stakedAmount - req.amount)
                ((max 0 ⌊(pos.lockEndDate - now) / msPerDay⌋ : ℤ) : ℚ))
              pos.strongHolderScore }) := by
  unfold unstake
  rw [hpos]
  simp only
  rw [if_neg (not_lt.mpr (le_of_lt hamt))]
  rw [if_pos (show req.early = true ∧ now < pos.lockEndDate from ⟨hearly, hlock⟩)]
  rw [if_neg (show ¬(pos.stakedAmount - req.amount ≤ 0) from by linarith)]

/-- C8 witness: the spec's scenario — unstaking 50 of 100 staked tokens
early, before the lock end, returns 45 with a penalty of 5, leaving a
position of 50 staked tokens with tier and weight recomputed. -/
theorem early_unstake_penalty_witness :
    (unstake 0 c8Stakers ⟨"a", 50, true⟩).1 =
      .returned 45 5 (some { c8Pos with
        stakedAmount := 50
        tier := .public
        effectiveWeight := getEffectiveWeight .public 50 }) := by
  have h := early_unstake_penalty 0 c8Stakers ⟨"a", 50, true⟩ c8Pos
    (by simp [c8Stakers]) rfl
    (by norm_num [c8Pos, msPerDay]) (by norm_num [c8Pos])
  rw [h]
  norm_num [EARLY_UNSTAKE_PENALTY, c8Pos, msPerDay, getTierForStake, TIER_CONFIG]

/-- C9: when `stake` is called for a wallet that already has a position, the
amount is added to the balance, the lock-end becomes
`max(existingLockEnd, now + lockDays)`, the tier is recomputed from the
cumulative balance with the newly supplied `lockDays`, and the effective
weight is recomputed afterwards; moreover `stake` always succeeds — the
resulting ledger stores the returned position. -/
theorem stake_merge_semantics (now : ℚ) (s : Stakers) (req : StakeRequest) :
    (∀ pos, s req.wallet = some pos →
      (stake now s req).1 =
        { pos with
          stakedAmount := pos.stakedAmount + req.amount
          lockEndDate := max pos.lockEndDate (now + req.lockDays * msPerDay)
          tier := getTierForStake (pos.stakedAmount + req.amount) req.lockDays
          effectiveWeight :=
            getEffectiveWeight (getTierForStake (pos.stakedAmount + req.amount) req.lockDays)
              pos.strongHolderScore }) ∧
    (stake now s req).2 req.wallet = some (stake now s req).1 := by
  constructor
  · intro pos hpos
    unfold stake
    rw [hpos]
  · unfold stake
    cases s req.wallet <;> simp

/-- C9 witness: merging 50,000 more tokens at 90 lock days into an existing
60,000-token position locked until day 100 yields a 110,000-token position,
keeps the later lock end, and recomputes the tier to gold from the
cumulative balance and the new 90-day parameter. -/
theorem stake_merge_semantics_witness :
    (stake 0 c9Stakers ⟨"a", 50000, 90⟩).1 =
      { c9Pos with
        stakedAmount := 110000
        lockEndDate := 100 * msPerDay
        tier := .gold
        effectiveWeight := getEffectiveWeight .gold 50 } := by
  have h := (stake_merge_semantics 0 c9Stakers ⟨"a", 50000, 90⟩).1 c9Pos (by simp [c9Stakers])
  rw [h]
  norm_num [c9Pos, msPerDay, getTierForStake, TIER_CONFIG]

/-- Helper: the `find?` over the ascending `VESTING_TIERS` table reduces to
the four-way threshold comparison on the USD amount. -/
lemma vestingTierFor_eq (aUSD : ℚ) :
    vestingTierFor aUSD =
      if aUSD ≤ 500 then ⟨some 500, 0, 0, 100⟩
      else if aUSD ≤ 2000 then ⟨some 2000, 0, 30, 50⟩
      else if aUSD ≤ 10000 then ⟨some 10000, 7, 60, 25⟩
      else ⟨none, 14, 90, 20⟩ := by
  unfold vestingTierFor VESTING_TIERS
  by_cases h1 : aUSD ≤ 500 <;> by_cases h2 : aUSD ≤ 2000 <;> by_cases h3 : aUSD ≤ 10000 <;>
    simp [List.find?, h1, h2, h3]
  all_goals linarith

/-- C2: the releases of every schedule built by `createVestingSchedule` sum
exactly to the token amount; an amount of at most $500 yields a single
already-released record of the full amount; above $500 the schedule is the
floored TGE tranche followed by four tranches of `⌊vestingAmount/4⌋` with the
whole integer-division remainder folded into the final tranche. -/
theorem vesting_sum_law (now amountUSD : ℚ) (tokens : ℤ) :
    ((createVestingSchedule now amountUSD tokens).releases.map VestingRelease.amount).sum
        = tokens ∧
    (amountUSD ≤ 500 →
      (createVestingSchedule now amountUSD tokens).releases =
        [{ date := now, amount := tokens, released := true }]) ∧
    (500 < amountUSD →
      (createVestingSchedule now amountUSD tokens).releases.map VestingRelease.amount =
        [⌊(tokens : ℚ) * ((vestingTierFor amountUSD).tgePercent / 100)⌋,
         ⌊((tokens - ⌊(tokens : ℚ) * ((vestingTierFor amountUSD).tgePercent / 100)⌋ : ℤ) : ℚ) / 4⌋,
         ⌊((tokens - ⌊(tokens : ℚ) * ((vestingTierFor amountUSD).tgePercent / 100)⌋ : ℤ) : ℚ) / 4⌋,
         ⌊((tokens - ⌊(tokens : ℚ) * ((vestingTierFor amountUSD).tgePercent / 100)⌋ : ℤ) : ℚ) / 4⌋,
         (tokens - ⌊(tokens : ℚ) * ((vestingTierFor amountUSD).tgePercent / 100)⌋) -
           3 * ⌊((tokens - ⌊(tokens : ℚ) * ((vestingTierFor amountUSD).tgePercent / 100)⌋ : ℤ) : ℚ) / 4⌋]) := by
  have htier := vestingTierFor_eq amountUSD
  unfold createVestingSchedule
  rw [htier]
  by_cases h1 : amountUSD ≤ 500
  · rw [if_pos h1]
    refine ⟨by simp, fun _ => by simp, fun hcontra => absurd h1 (not_le.mpr hcontra)⟩
  · rw [if_neg h1]
    by_cases h2 : amountUSD ≤ 2000
    · rw [if_pos h2]
      simp only [List.range, List.range.loop, List.map, show ((4:ℕ) - 1) = 3 from rfl]
      norm_num [List.sum_cons]
      exact ⟨by omega, not_le.mp h1, fun _ => by ring⟩
    · rw [if_neg h2]
      by_cases h3 : amountUSD ≤ 10000
      · rw [if_pos h3]
        simp only [List.range, List.range.loop, List.map, show ((4:ℕ) - 1) = 3 from rfl]
        norm_num [List.sum_cons]
        exact ⟨by omega, not_le.mp h1, fun _ => by ring⟩
      · rw [if_neg h3]
        simp only [List.range, List.range.loop, List.map, show ((4:ℕ) - 1) = 3 from rfl]
        norm_num [List.sum_cons]
        exact ⟨by omega, not_le.mp h1, fun _ => by ring⟩

/-- C2 witness: a $1,500 / 1,000-token allocation vests as
`[500, 125, 125, 125, 125]` summing to 1,000, and a $300 / 77-token
allocation yields the single already-released record. -/
theorem vesting_sum_law_witness :
    ((createVestingSchedule 0 1500 1000).releases.map VestingRelease.amount).sum = 1000 ∧
    (createVestingSchedule 0 1500 1000).releases.map VestingRelease.amount =
      [500, 125, 125, 125, 125] ∧
    (createVestingSchedule 0 300 77).releases =
      [{ date := 0, amount := 77, released := true }] := by
  refine ⟨(vesting_sum_law 0 1500 1000).1, ?_, (vesting_sum_law 0 300 77).2.1 (by norm_num)⟩
  have h := (vesting_sum_law 0 1500 1000).2.2 (by norm_num)
  rw [h, vestingTierFor_eq]
  norm_num [Int.floor_eq_iff]

/-- Helper: a list sum of floors is bounded by the sum of the floored
rationals. -/
lemma floor_map_sum_le (l : List ℚ) :
    (((l.map fun x => ⌊x⌋).sum : ℤ) : ℚ) ≤ l.sum := by
  induction l with
  | nil => simp
  | cons x xs ih =>
      simp only [List.map_cons, List.sum_cons, Int.cast_add]
      exact add_le_add (Int.floor_le x) ih

/-- Helper: a constant factor distributes over the sum of participant
weights. -/
lemma map_const_mul_weight_sum (c : ℚ) (l : List AllocationEntry) :
    (l.map fun p => c * p.weight).sum = c * (l.map AllocationEntry.weight).sum := by
  induction l with
  | nil => simp
  | cons x xs ih =>
      simp only [List.map_cons, List.sum_cons, ih]
      ring

/-- Helper: one execution of the guaranteed distribution on a fresh pool
(`allocated = 0`) allocates at most the pool's `totalTokens`, because the sum
of the floored pro-rata shares is bounded by the pool size and each award is
further capped by `min`. -/
lemma guaranteed_allocated_le (tokenPrice now : ℚ) (pool : PoolAllocation)
    (halloc : pool.allocated = 0) (htot : 0 ≤ pool.totalTokens)
    (hw : pool.participants ≠ [] → 0 < (pool.participants.map AllocationEntry.weight).sum) :
    (executeGuaranteedPool tokenPrice now pool).allocated ≤ pool.totalTokens := by
  by_cases hP : pool.participants = []
  · unfold executeGuaranteedPool
    rw [if_pos hP, halloc]
    exact htot
  · have hW := hw hP
    unfold executeGuaranteedPool
    rw [if_neg hP]
    simp only [List.map_map, Function.comp_def, halloc, zero_add]
    set W := (pool.participants.map AllocationEntry.weight).sum with hWdef
    have step1 : ((pool.participants.map fun p =>
        min ⌊(pool.totalTokens : ℚ) * (p.weight / W)⌋ ⌊p.requestedAmount / tokenPrice⌋).sum) ≤
        (pool.participants.map fun p => ⌊(pool.totalTokens : ℚ) * (p.weight / W)⌋).sum :=
      List.sum_le_sum fun p _ => min_le_left _ _
    have step2 : (((pool.participants.map fun p =>
        ⌊(pool.totalTokens : ℚ) * (p.weight / W)⌋).sum : ℤ) : ℚ) ≤
        (pool.participants.map fun p => (pool.totalTokens : ℚ) * (p.weight / W)).sum := by
      have h := floor_map_sum_le (pool.participants.map fun p =>
        (pool.totalTokens : ℚ) * (p.weight / W))
      simpa [List.map_map, Function.comp_def] using h
    have step3 : (pool.participants.map fun p =>
        (pool.totalTokens : ℚ) * (p.weight / W)).sum = (pool.totalTokens : ℚ) := by
      have hfun : (fun p : AllocationEntry => (pool.totalTokens : ℚ) * (p.weight / W)) =
          fun p : AllocationEntry => ((pool.totalTokens : ℚ) / W) * p.weight := by
        funext p
        ring
      rw [hfun, map_const_mul_weight_sum, ← hWdef]
      field_simp
    rw [step3] at step2
    exact_mod_cast le_trans (Int.cast_le.mpr step1) step2

/-- Helper: the drawing loop keeps `remainingTokens` non-negative and
preserves the sum `allocated + remainingTokens`, for every ticket order. -/
lemma lotteryDraw_invariant (tokenPrice maxPerWallet now : ℚ) (tickets : List String) :
    ∀ (winners : List String) (parts : List AllocationEntry) (alloc rem : ℤ), 0 ≤ rem →
      0 ≤ (lotteryDraw tokenPrice maxPerWallet now tickets winners parts alloc rem).2.2 ∧
      (lotteryDraw tokenPrice maxPerWallet now tickets winners parts alloc rem).2.1 +
        (lotteryDraw tokenPrice maxPerWallet now tickets winners parts alloc rem).2.2 =
        alloc + rem := by
  induction tickets with
  | nil =>
      intro winners parts alloc rem hrem
      exact ⟨hrem, rfl⟩
  | cons w rest ih =>
      intro winners parts alloc rem hrem
      unfold lotteryDraw
      by_cases h0 : rem ≤ 0
      · rw [if_pos h0]
        exact ⟨hrem, rfl⟩
      · rw [if_neg h0]
        by_cases hwin : w ∈ winners
        · rw [if_pos hwin]
          exact ih winners parts alloc rem hrem
        · rw [if_neg hwin]
          cases hf : parts.find? fun p => p.wallet = w with
          | none =>
              simp only
              exact ih winners parts alloc rem hrem
          | some participant =>
              simp only
              have hle : min (min ⌊maxPerWallet / tokenPrice⌋
                  ⌊participant.requestedAmount / tokenPrice⌋) rem ≤ rem :=
                min_le_right _ _
              have h := ih (w :: winners)
                (updateFirst w
                  (fun p =>
                    { p with
                      allocatedTokens := min (min ⌊maxPerWallet / tokenPrice⌋
                        ⌊participant.requestedAmount / tokenPrice⌋) rem
                      allocatedValueUSD := ((min (min ⌊maxPerWallet / tokenPrice⌋
                        ⌊participant.requestedAmount / tokenPrice⌋) rem : ℤ) : ℚ) * tokenPrice
                      status := .won
                      vestingSchedule :=
                        some (createVestingSchedule now
                          (((min (min ⌊maxPerWallet / tokenPrice⌋
                            ⌊participant.requestedAmount / tokenPrice⌋) rem : ℤ) : ℚ) * tokenPrice)
                          (min (min ⌊maxPerWallet / tokenPrice⌋
                            ⌊participant.requestedAmount / tokenPrice⌋) rem)) })
                  parts)
                (alloc + min (min ⌊maxPerWallet / tokenPrice⌋
                  ⌊participant.requestedAmount / tokenPrice⌋) rem)
                (rem - min (min ⌊maxPerWallet / tokenPrice⌋
                  ⌊participant.requestedAmount / tokenPrice⌋) rem)
                (by omega)
              refine ⟨h.1, ?_⟩
              rw [h.2]
              ring

/-- Helper: one execution of the lottery distribution on a fresh pool
(`allocated = 0`) allocates at most the pool's `totalTokens`, for every
possible shuffled ticket order. -/
lemma lottery_allocated_le (tokenPrice now : ℚ) (poolId : AllocationPool)
    (shuffledTickets : List String) (poolData : PoolAllocation)
    (halloc : poolData.allocated = 0) (htot : 0 ≤ poolData.totalTokens) :
    (executeLotteryPool tokenPrice now poolId shuffledTickets poolData).allocated ≤
      poolData.totalTokens := by
  by_cases hP : poolData.participants = []
  · unfold executeLotteryPool
    rw [if_pos hP, halloc]
    exact htot
  · unfold executeLotteryPool
    rw [if_neg hP]
    simp only
    have h := lotteryDraw_invariant tokenPrice (POOL_CONFIG poolId).maxPerWallet now
      shuffledTickets [] poolData.participants poolData.allocated poolData.totalTokens htot
    rw [halloc] at h ⊢
    omega

/-- C1 (amended): executing a pool's distribution once, from a freshly
initialized pool whose `allocated` counter is 0, never allocates more than
the pool's `totalTokens` — for the guaranteed pool (whenever the weights of a
non-empty participant list have positive sum) and for every lottery pool
under every shuffled ticket order.  The strict-inequality condition of the
original claim is dropped: flooring of pro-rata shares alone can leave
`allocated < totalTokens` with no participant cap-limited (see the
counterexample), and re-execution can exceed `totalTokens` (see C4). -/
theorem allocation_conservation_single_run :
    (∀ (tokenPrice now : ℚ) (pool : PoolAllocation),
      pool.allocated = 0 → 0 ≤ pool.totalTokens →
      (pool.participants ≠ [] → 0 < (pool.participants.map AllocationEntry.weight).sum) →
      (executeGuaranteedPool tokenPrice now pool).allocated ≤ pool.totalTokens) ∧
    (∀ (tokenPrice now : ℚ) (poolId : AllocationPool) (shuffledTickets : List String)
      (poolData : PoolAllocation),
      poolData.allocated = 0 → 0 ≤ poolData.totalTokens →
      (executeLotteryPool tokenPrice now poolId shuffledTickets poolData).allocated ≤
        poolData.totalTokens) :=
  ⟨guaranteed_allocated_le, lottery_allocated_le⟩

/-- C1 witness: conservation instantiated on a concrete one-participant
guaranteed pool and a concrete lottery pool with a two-ticket draw. -/
theorem allocation_conservation_witness :
    (executeGuaranteedPool 1 0 smallGuaranteedPool).allocated ≤
      smallGuaranteedPool.totalTokens ∧
    (executeLotteryPool 1 0 .fcfs ["a", "a"] smallLotteryPool).allocated ≤
      smallLotteryPool.totalTokens :=
  ⟨allocation_conservation_single_run.1 1 0 smallGuaranteedPool rfl
      (by norm_num [smallGuaranteedPool])
      (fun _ => by norm_num [smallGuaranteedPool]),
   allocation_conservation_single_run.2 1 0 .fcfs ["a", "a"] smallLotteryPool rfl
      (by norm_num [smallLotteryPool])⟩

/-- C1 counterexample: a guaranteed pool of 100 tokens with three
equal-weight, far-from-capped participants distributes only 99 tokens
(the floored shares are 33 each), so `allocated` is strictly below
`totalTokens` although no participant's share was capped — refuting the
"strictly less only if some participant was cap-limited" condition. -/
theorem guaranteed_floor_loss_cex :
    guaranteedNoneCapped 1 floorLossPool = true ∧
    (executeGuaranteedPool 1 0 floorLossPool).allocated = 99 ∧
    floorLossPool.totalTokens = 100 := by
  refine ⟨?_, ?_, rfl⟩
  · simp [guaranteedNoneCapped, floorLossPool, floorLossEntry]
    all_goals norm_num [Int.floor_eq_iff]
  · simp [executeGuaranteedPool, floorLossPool, floorLossEntry]
    all_goals norm_num [Int.floor_eq_iff]

/-- C3: the guaranteed pro-rata distribution gives the participant at every
index exactly `min(⌊poolTokens·weight/totalWeight⌋, ⌊requestedUSD/price⌋)`
tokens — so a capped participant's surplus is never redistributed — marks it
`filled` and attaches a vesting schedule; and in the spec's scenario
(weights 10 and 5 sharing 300,000 tokens, neither capped) the participants
receive 200,000 and 100,000 tokens. -/
theorem guaranteed_prorata_distribution :
    (∀ (tokenPrice now : ℚ) (pool : PoolAllocation) (i : ℕ) (hi : i < pool.participants.length),
      0 < tokenPrice → pool.participants ≠ [] →
      (executeGuaranteedPool tokenPrice now pool).participants[i]? =
        some (let p := pool.participants.get ⟨i, hi⟩
              let W := (pool.participants.map AllocationEntry.weight).sum
              let fin := min ⌊(pool.totalTokens : ℚ) * (p.weight / W)⌋
                ⌊p.requestedAmount / tokenPrice⌋
              { p with
                allocatedTokens := fin
                allocatedValueUSD := (fin : ℚ) * tokenPrice
                status := .filled
                vestingSchedule :=
                  some (createVestingSchedule now ((fin : ℚ) * tokenPrice) fin) })) ∧
    ((executeGuaranteedPool (1/1000) 0 proRataScenarioPool).participants.map
        AllocationEntry.allocatedTokens = [200000, 100000] ∧
      (executeGuaranteedPool (1/1000) 0 proRataScenarioPool).participants.map
        AllocationEntry.status = [.filled, .filled]) := by
  constructor
  · intro tokenPrice now pool i hi hprice hne
    unfold executeGuaranteedPool
    rw [if_neg hne]
    simp only [List.getElem?_map, List.getElem?_eq_getElem hi, Option.map_some]
    simp [List.get_eq_getElem]
  · constructor
    · simp [executeGuaranteedPool, proRataScenarioPool]
      all_goals norm_num [Int.floor_eq_iff]
    · simp [executeGuaranteedPool, proRataScenarioPool]
      all_goals norm_num [Int.floor_eq_iff]

/-- C3 witness: the pointwise award formula instantiated at index 0 of the
scenario pool evaluates to 200,000 tokens with status `filled`. -/
theorem guaranteed_prorata_distribution_witness :
    (executeGuaranteedPool (1/1000) 0 proRataScenarioPool).participants[0]?.map
      AllocationEntry.allocatedTokens = some 200000 ∧
    (executeGuaranteedPool (1/1000) 0 proRataScenarioPool).participants[0]?.map
      AllocationEntry.status = some .filled := by
  have h := guaranteed_prorata_distribution.1 (1/1000) 0 proRataScenarioPool 0
    (by norm_num [proRataScenarioPool]) (by norm_num) (by simp [proRataScenarioPool])
  rw [h]
  constructor
  · simp [proRataScenarioPool]
    all_goals norm_num [Int.floor_eq_iff]
  · simp [proRataScenarioPool]

/-- C4: re-running the guaranteed distribution after it has already run is
not a no-op — on a 1,000-token pool with one uncapped participant the first
run sets `allocated = 1000` and the second run doubles it to 2,000,
exceeding the pool's own `totalTokens`.  The code has no `distributed`
guard, contradicting the spec's "re-running must be rejected or be a
guaranteed no-op, never double-award". -/
theorem guaranteed_rerun_double_awards :
    (executeGuaranteedPool 1 0 doubleRunPool).allocated = 1000 ∧
    (executeGuaranteedPool 1 0 (executeGuaranteedPool 1 0 doubleRunPool)).allocated = 2000 ∧
    doubleRunPool.totalTokens = 1000 := by
  refine ⟨?_, ?_, rfl⟩
  · simp [executeGuaranteedPool, doubleRunPool]
    all_goals norm_num [Int.floor_eq_iff]
  · simp [executeGuaranteedPool, doubleRunPool]
    all_goals norm_num [Int.floor_eq_iff]

/-- C5: pool status is not monotone — `openPool` assigns `open`
unconditionally, so a pool that has reached `closed` regresses to `open`
(rank 1 < rank 2 in the documented lifecycle order), contradicting the
spec's monotone-lifecycle invariant. -/
theorem pool_status_regression :
    (closePool (openPool lifecyclePool)).status = .closed ∧
    (openPool (closePool (openPool lifecyclePool))).status = .opened ∧
    PoolStatus.rank .opened < PoolStatus.rank .closed := by
  refine ⟨rfl, rfl, ?_⟩
  decide

end DiamondPad
